import Mathlib

/-!
# Lostromos: status model and Ansible controller

A shallow embedding of `crwatcher/status.go` and `ansiblectlr/ansible.go`.

Conventions of the embedding:

* A Go `string` is a `GoString`, its sequence of bytes, which need not be well-formed
  UTF-8 (the output of a process, for one). `bytesOf` gives the bytes of a literal.
  Map keys, command names and Go type names, which the code writes as literals, are
  Lean strings.
* Go values held in an `interface{}` are values of `Value`; a `map[string]interface{}`
  is an association list, read with `index` (Go's `m[k]`, which yields `nil` for an
  absent key) and written with `setKey` (Go's `m[k] = v`).
* A Go call that may panic returns a `Result`.
* `metav1.Time` is the instant in nanoseconds since the zero time; the zero time is `0`.
  `metav1.Now()` is an explicit clock reading.
* Functions of third-party packages whose code is outside the repository (`time`,
  `path`, the JSON form of a Helm release) are the fields of `Lib`.
* The handlers run in a `World` (metric counters, the trace of external effects, the
  number of clock readings taken so far) against an `Env` (command results, clock).
-/

namespace Lostromos

/-! ## Go strings -/

/-- A byte. -/
abbrev Byte := Fin 256

/-- A Go `string`: a sequence of bytes. -/
abbrev GoString := List Byte

/-- The byte `n % 256`. -/
def byte (n : Nat) : Byte := Fin.ofNat n

/-- The UTF-8 encoding of a character. -/
def encodeRune (c : Char) : List Byte :=
  let n := c.toNat
  if n < 0x80 then [byte n]
  else if n < 0x800 then [byte (0xC0 + n / 64), byte (0x80 + n % 64)]
  else if n < 0x10000 then
    [byte (0xE0 + n / 4096), byte (0x80 + n / 64 % 64), byte (0x80 + n % 64)]
  else
    [byte (0xF0 + n / 262144), byte (0x80 + n / 4096 % 64), byte (0x80 + n / 64 % 64),
     byte (0x80 + n % 64)]

/-- The Go string of a literal: its UTF-8 bytes. -/
def bytesOf (s : String) : GoString := s.data.flatMap encodeRune

/-- Whether the byte `b` lies between `lo` and `hi`, both included. -/
def inRange (b : Byte) (lo hi : Nat) : Bool := decide (lo ≤ b.val ∧ b.val ≤ hi)

/-- Go `utf8.DecodeRune`, width only: the number of bytes of the well-formed UTF-8
sequence at the head of the bytes, and `0` when there is none (Go then decodes
`RuneError` with width one). -/
def runeWidth : List Byte → Nat
  | [] => 0
  | b0 :: rest =>
    if b0.val < 0x80 then 1
    else if inRange b0 0xC2 0xDF then
      match rest with
      | b1 :: _ => if inRange b1 0x80 0xBF then 2 else 0
      | _ => 0
    else if inRange b0 0xE0 0xEF then
      match rest with
      | b1 :: b2 :: _ =>
        if inRange b1 (if b0.val = 0xE0 then 0xA0 else 0x80)
              (if b0.val = 0xED then 0x9F else 0xBF)
            && inRange b2 0x80 0xBF then 3 else 0
      | _ => 0
    else if inRange b0 0xF0 0xF4 then
      match rest with
      | b1 :: b2 :: b3 :: _ =>
        if inRange b1 (if b0.val = 0xF0 then 0x90 else 0x80)
              (if b0.val = 0xF4 then 0x8F else 0xBF)
            && inRange b2 0x80 0xBF && inRange b3 0x80 0xBF then 4 else 0
      | _ => 0
    else 0

/-- The loop of `toValidUTF8`, with `pending` bytes of the current well-formed sequence
still to copy. -/
def toValidUTF8From : Nat → List Byte → List Byte
  | _, [] => []
  | pending + 1, b :: rest => b :: toValidUTF8From pending rest
  | 0, b :: rest =>
    match runeWidth (b :: rest) with
    | 0 => 0xEF :: 0xBF :: 0xBD :: toValidUTF8From 0 rest
    | w + 1 => b :: toValidUTF8From w rest

/-- A Go string as it comes back from `json.Marshal` followed by `json.Unmarshal`:
well-formed UTF-8 sequences are kept, and every byte that does not start one is
replaced by the encoding of U+FFFD. -/
def toValidUTF8 (s : GoString) : GoString := toValidUTF8From 0 s

/-! ## Go values -/

/-- Outcome of a Go call: it returns a value, or it panics. -/
inductive Result (α : Type) where
  | returned (a : α)
  | panicked

/-- An instant, as nanoseconds since the zero time (`metav1.Time`, `time.Time`). -/
abbrev Time := Nat

/-- The number of nanoseconds in a second (`time.Second`). -/
def nanosPerSecond : Nat := 1000000000

/-- Go type `ResourcePhase` (`type ResourcePhase string`). -/
abbrev ResourcePhase := GoString

/-- Go type `ConditionReason` (`type ConditionReason string`). -/
abbrev ConditionReason := GoString

def PhaseNone : ResourcePhase := bytesOf ""
def PhaseApplying : ResourcePhase := bytesOf "Applying"
def PhaseApplied : ResourcePhase := bytesOf "Applied"
def PhaseFailed : ResourcePhase := bytesOf "Failed"

def ReasonUnknown : ConditionReason := bytesOf "Unknown"
def ReasonCustomResourceAdded : ConditionReason := bytesOf "CustomResourceAdded"
def ReasonCustomResourceUpdated : ConditionReason := bytesOf "CustomResourceUpdated"
def ReasonApplySuccessful : ConditionReason := bytesOf "ApplySuccessful"
def ReasonApplyFailed : ConditionReason := bytesOf "ApplyFailed"

/-- Go struct `CustomResourceStatus`. `R` is the type of a Helm release record
(`release.Release`); the field `Release` is a pointer, `none` being `nil`. -/
structure CustomResourceStatus (R : Type) where
  Release : Option R
  Phase : ResourcePhase
  Reason : ConditionReason
  Message : GoString
  LastUpdateTime : Time
  LastTransitionTime : Time

/-- The zero value `CustomResourceStatus{}`. -/
def CustomResourceStatus.zero {R : Type} : CustomResourceStatus R :=
  { Release := none, Phase := [], Reason := [], Message := [],
    LastUpdateTime := 0, LastTransitionTime := 0 }

/-- A Go value held in an `interface{}`, by dynamic type. The first eight are the JSON
values: `nil`, `bool`, `int64`, `float64` (by its bits), `json.Number` (by its text),
`string`, `[]interface{}` and `map[string]interface{}`. Then a `CustomResourceStatus`
struct value, and a value of any other type, told apart by the name of its Go type
only. -/
inductive Value (R : Type) where
  | null
  | bool (b : Bool)
  | int64 (n : Int)
  | float64 (bits : Nat)
  | number (text : GoString)
  | str (s : GoString)
  | slice (xs : List (Value R))
  | object (fields : List (String × Value R))
  | status (s : CustomResourceStatus R)
  | other (goType : String)

/-- A Go `map[string]interface{}`. -/
abbrev Object (R : Type) := List (String × Value R)

/-- Go map read `m[k]`: the value stored under `k`, `nil` when the key is absent. -/
def index {R : Type} (m : Object R) (k : String) : Value R :=
  match m.lookup k with
  | some v => v
  | none => .null

/-- Go map write `m[k] = v`. -/
def setKey {R : Type} : Object R → String → Value R → Object R
  | [], k, v => [(k, v)]
  | (k0, v0) :: rest, k, v => if k0 = k then (k, v) :: rest else (k0, v0) :: setKey rest k v

/-- Name of the dynamic Go type of a value, as printed in conversion errors. -/
def goTypeName {R : Type} : Value R → String
  | .null => "nil"
  | .bool _ => "bool"
  | .int64 _ => "int64"
  | .float64 _ => "float64"
  | .number _ => "json.Number"
  | .str _ => "string"
  | .slice _ => "[]interface \x7b\x7d"
  | .object _ => "map[string]interface \x7b\x7d"
  | .status _ => "crwatcher.CustomResourceStatus"
  | .other goType => goType

/-- Go type `unstructured.Unstructured`: a resource as a generic attribute map. -/
structure Unstructured (R : Type) where
  Object : Object R

/-- Go `getNestedString(u.Object, "metadata", "namespace")`, which is what
`Unstructured.GetNamespace` returns: the string under `metadata.namespace`, or `""`. -/
def Unstructured.GetNamespace {R : Type} (u : Unstructured R) : GoString :=
  match index u.Object "metadata" with
  | .object md =>
    match index md "namespace" with
    | .str ns => ns
    | _ => []
  | _ => []

mutual
/-- Whether `DeepCopyJSONValue` accepts the value: it is one of the JSON values, and so
are the values it holds, at any depth. -/
def Value.isJSON {R : Type} : Value R → Bool
  | .null => true
  | .bool _ => true
  | .int64 _ => true
  | .float64 _ => true
  | .number _ => true
  | .str _ => true
  | .slice xs => allJSON xs
  | .object fields => fieldsJSON fields
  | .status _ => false
  | .other _ => false
/-- Whether every element of a slice is a JSON value. -/
def allJSON {R : Type} : List (Value R) → Bool
  | [] => true
  | x :: xs => x.isJSON && allJSON xs
/-- Whether every value of a map is a JSON value. -/
def fieldsJSON {R : Type} : List (String × Value R) → Bool
  | [] => true
  | (_, v) :: rest => v.isJSON && fieldsJSON rest
end

/-- Go `Unstructured.DeepCopy`, which copies `Object` with `DeepCopyJSON`: the copy
equals the original, and the call panics (`cannot deep copy`) when the map holds, at
any depth, a value that is not a JSON value. -/
def Unstructured.DeepCopy {R : Type} (u : Unstructured R) : Result (Unstructured R) :=
  if fieldsJSON u.Object then .returned u else .panicked

/-! ## Third-party functions -/

/-- Functions of packages outside the repository, taken as parameters.
`formatRFC3339 sec` is `t.UTC().Format(time.RFC3339)` for an instant `t` in whole second
`sec`; `parseRFC3339 txt` is `time.Parse(time.RFC3339, txt)`, an instant in nanoseconds or
the text of the parse error. `marshalRelease` and `unmarshalRelease` are the generic JSON
form of a Helm release and its decoding. `stringFromOther goType field` and
`timeFromOther goType` are what the unstructured converter answers when the value to
decode into a string-kinded field of type `field`, or into a `metav1.Time`, is of
another Go type `goType`. `pathJoin` is `path.Join` of two elements. -/
structure Lib (R : Type) where
  formatRFC3339 : Nat → GoString
  parseRFC3339 : GoString → Except GoString Nat
  marshalRelease : R → Value R
  unmarshalRelease : Value R → Except GoString R
  stringFromOther : String → String → Except GoString GoString
  timeFromOther : String → Except GoString Time
  pathJoin : GoString → GoString → GoString

/-! ## crwatcher/status.go -/

/-- JSON form of a `metav1.Time` (`Time.MarshalJSON`) after `json.Unmarshal` into an
`interface{}`: `null` for the zero time, else the RFC 3339 text of the instant, which
has whole-second precision, written as a JSON string. -/
def marshalTime {R : Type} (lib : Lib R) (t : Time) : Value R :=
  if t = 0 then .null else .str (toValidUTF8 (lib.formatRFC3339 (t / nanosPerSecond)))

/-- Go `CustomResourceStatus.ToMap`: `json.Marshal` of the struct, then
`json.Unmarshal` into a `map[string]interface{}`. The struct tags give the keys:
`release` and `phase` are always present, `reason` and `message` are omitted when
empty (`omitempty`), the two times are always present (`omitempty` does not apply to a
struct). A string is written as a JSON string, which replaces bytes that are not
well-formed UTF-8. Marshalling these field types does not fail, so the error result is
not produced. -/
def ToMap {R : Type} (lib : Lib R) (s : CustomResourceStatus R) : Except GoString (Object R) :=
  .ok ([("release", match s.Release with
                    | none => Value.null
                    | some rel => lib.marshalRelease rel),
        ("phase", Value.str (toValidUTF8 s.Phase))]
    ++ (if s.Reason = [] then [] else [("reason", Value.str (toValidUTF8 s.Reason))])
    ++ (if s.Message = [] then [] else [("message", Value.str (toValidUTF8 s.Message))])
    ++ [("lastUpdateTime", marshalTime lib s.LastUpdateTime),
        ("lastTransitionTime", marshalTime lib s.LastTransitionTime)])

/-- Go `CustomResourceStatus.SetPhase`. `now₁` is the reading of `metav1.Now()` assigned
to `LastUpdateTime`; `now₂` is the reading of the second `metav1.Now()`, taken only when
the phase differs. -/
def SetPhase {R : Type} (s : CustomResourceStatus R) (now₁ now₂ : Time)
    (phase : ResourcePhase) (reason : ConditionReason) (message : GoString) :
    CustomResourceStatus R :=
  let s := { s with LastUpdateTime := now₁ }
  let s := if s.Phase ≠ phase then
      { s with Phase := phase, LastTransitionTime := now₂ }
    else s
  let s := { s with Message := message }
  { s with Reason := reason }

/-- Go `CustomResourceStatus.SetRelease`. -/
def SetRelease {R : Type} (s : CustomResourceStatus R) (release : Option R) :
    CustomResourceStatus R :=
  { s with Release := release }

/-- Decoding of a string-kinded field of Go type `field` (`ResourcePhase`,
`ConditionReason`, `string`) by the unstructured converter. `nil` gives the zero value;
a `string` or a `json.Number`, both of kind string, converts; an `int64`, which Go can
convert to a string but JSON cannot, is `cannot convert`; a `bool`, a `float64`, a
slice, a map or a struct, which Go cannot convert, falls through to
`unrecognized type: string`. -/
def stringFromUnstructured {R : Type} (lib : Lib R) (field : String) :
    Value R → Except GoString GoString
  | .null => .ok []
  | .str s => .ok s
  | .number text => .ok text
  | .int64 _ => .error (bytesOf ("cannot convert int64 to " ++ field))
  | .other goType => lib.stringFromOther goType field
  | _ => .error (bytesOf "unrecognized type: string")

/-- Decoding of a `metav1.Time` field by the unstructured converter. `nil` gives the
zero time. Any other value is marshalled to JSON and handed to `Time.UnmarshalJSON`,
which unmarshals it into a string, ignoring a failure, and parses the string as
RFC 3339: a string is parsed as it is written in JSON, and a value whose JSON form is
not a string leaves the empty string to parse. -/
def timeFromUnstructured {R : Type} (lib : Lib R) : Value R → Except GoString Time
  | .null => .ok 0
  | .str txt => lib.parseRFC3339 (toValidUTF8 txt)
  | .other goType => lib.timeFromOther goType
  | _ => lib.parseRFC3339 []

/-- Decoding of the `*release.Release` field: `nil` gives the nil pointer, any other
value is decoded as a release. -/
def releaseFromUnstructured {R : Type} (lib : Lib R) : Value R → Except GoString (Option R)
  | .null => .ok none
  | v =>
    match lib.unmarshalRelease v with
    | .ok rel => .ok (some rel)
    | .error err => .error err

/-- Go `runtime.DefaultUnstructuredConverter.FromUnstructured(u, &status)` for
`status *CustomResourceStatus`: a fresh struct is allocated and its fields are decoded
in declaration order from the keys named by the struct tags; an absent or `nil` key
leaves the zero value, other keys of `u` are ignored, the first failure is returned. -/
def FromUnstructured {R : Type} (lib : Lib R) (u : Object R) :
    Except GoString (CustomResourceStatus R) := do
  let release ← releaseFromUnstructured lib (index u "release")
  let phase ← stringFromUnstructured lib "crwatcher.ResourcePhase" (index u "phase")
  let reason ← stringFromUnstructured lib "crwatcher.ConditionReason" (index u "reason")
  let message ← stringFromUnstructured lib "string" (index u "message")
  let lastUpdateTime ← timeFromUnstructured lib (index u "lastUpdateTime")
  let lastTransitionTime ← timeFromUnstructured lib (index u "lastTransitionTime")
  pure { Release := release, Phase := phase, Reason := reason, Message := message,
         LastUpdateTime := lastUpdateTime, LastTransitionTime := lastTransitionTime }

/-- Go `StatusFor`. The type switch is on the dynamic type of `cr.Object["status"]`:
a `CustomResourceStatus` struct value reaches the assertion
`.(*CustomResourceStatus)`, which fails on a value that is not a pointer and panics;
a map is decoded, a decoding error giving the `Failed` status; every other value,
`nil` included, gives the zero value. -/
def StatusFor {R : Type} (lib : Lib R) (cr : Unstructured R) : Result (CustomResourceStatus R) :=
  match index cr.Object "status" with
  | .status _ => .panicked
  | .object m =>
    match FromUnstructured lib m with
    | .error err =>
      .returned { CustomResourceStatus.zero with
                  Phase := PhaseFailed, Reason := ReasonApplyFailed, Message := err }
    | .ok status => .returned status
  | _ => .returned CustomResourceStatus.zero

/-! ## ansiblectlr/ansible.go -/

/-- Modelled from the spec: the package `metrics` is not in the sources. The spec lists
its surface: counters for total events observed, successful creations, updates and
deletions, the currently-managed count (incremented on create success, decremented on
delete success) and failure counters. `Inc` adds one and `Dec` subtracts one; the
managed count is a gauge and may go below zero. -/
structure Metrics where
  TotalEvents : Nat
  CreatedReleases : Nat
  UpdatedReleases : Nat
  DeletedReleases : Nat
  ManagedReleases : Int
  DeleteFailures : Nat

/-- Result of `exec.Command(name, args...).Output()`: the captured standard output,
as a string, and the error, `none` when the command ran and exited with success,
else the text of its detail. -/
structure CmdResult where
  out : GoString
  err : Option GoString

/-- An effect of a handler on the outside world: a command run to completion, or a
call of the resource store client's `Update`. Log lines are not recorded. -/
inductive Effect (R : Type) where
  | command (name : String) (args : List GoString)
  | update (r : Unstructured R)

/-- The outside world as the handlers find it: the result of running a command, the
successive readings of the clock (`now k` is the reading number `k`), and the answer
of the resource store to an `Update`. -/
structure Env (R : Type) where
  exec : String → List GoString → CmdResult
  now : Nat → Time
  update : Unstructured R → Except GoString (Unstructured R)

/-- The state the handlers act on: the metric counters, the effects so far in order
of occurrence, and the number of clock readings taken. -/
structure World (R : Type) where
  metrics : Metrics
  trace : List (Effect R)
  ticks : Nat

/-- Go struct `Controller`. The logger and the resource client are effects of the
`World`; the playbook directory is the configuration. -/
structure Controller where
  apbDir : GoString

/-- Go `strconv.FormatInt(n, 10)`. -/
def FormatInt (n : Int) : GoString := bytesOf (toString n)

/-- Modelled from the spec: `SetPodStatuses` is called by `updateCRStatus` but is
defined nowhere in the sources, and `CustomResourceStatus` has no field for pod
statuses. The status of the spec has the fields phase, reason, message and the two
times only, so the call leaves the record as it is. -/
def SetPodStatuses {R : Type} (s : CustomResourceStatus R)
    (_podStatuses : List (String × List String)) : CustomResourceStatus R :=
  s

/-- Go `extraVarsFrom`. The two type assertions are unchecked: the call panics when
`spec` is not a map or when `size` is not an `int64`. -/
def extraVarsFrom {R : Type} (r : Unstructured R) : Result (List GoString) :=
  match index r.Object "spec" with
  | .object spec =>
    match index spec "size" with
    | .int64 size =>
      .returned [bytesOf "-e", bytesOf "namespace=" ++ r.GetNamespace,
                 bytesOf "-e", bytesOf "size=" ++ FormatInt size]
    | _ => .panicked
  | _ => .panicked

/-- Go `Controller.updateCRStatus`. The copy of the resource is taken first, and
panics on a resource that holds a value that is not a JSON value. -/
def updateCRStatus {R : Type} (lib : Lib R) (env : Env R) (_c : Controller)
    (r : Unstructured R) (phase : ResourcePhase) (reason : ConditionReason)
    (message : GoString) (w : World R) :
    World R × Result (Except GoString (Unstructured R)) :=
  match r.DeepCopy with
  | .panicked => (w, .panicked)
  | .returned updatedResource =>
    match StatusFor lib r with
    | .panicked => (w, .panicked)
    | .returned status =>
      let readings := if status.Phase ≠ phase then 2 else 1
      let status :=
        SetPhase status (env.now w.ticks) (env.now (w.ticks + 1)) phase reason message
      let w := { w with ticks := w.ticks + readings }
      let status := SetPodStatuses status
        [("ready", ["my-test-example-1", "my-test-example-2"]),
         ("waiting", ["my-test-example-3"])]
      match ToMap lib status with
      | .error err => (w, .returned (.error err))
      | .ok statusMap =>
        let updatedResource : Unstructured R :=
          { Object := setKey updatedResource.Object "status" (.object statusMap) }
        ({ w with trace := w.trace ++ [Effect.update updatedResource] },
         .returned (env.update updatedResource))

/-- Go `Controller.ResourceAdded`. -/
def ResourceAdded {R : Type} (lib : Lib R) (env : Env R) (c : Controller)
    (r : Unstructured R) (w : World R) : World R × Result Unit :=
  let w := { w with metrics := { w.metrics with TotalEvents := w.metrics.TotalEvents + 1 } }
  match extraVarsFrom r with
  | .panicked => (w, .panicked)
  | .returned vars =>
    let cmdArgs := lib.pathJoin c.apbDir (bytesOf "provision.yml") :: vars
    match extraVarsFrom r with
    | .panicked => (w, .panicked)
    | .returned echoVars =>
      let w := { w with trace := w.trace ++
        [Effect.command "echo" (bytesOf "ansible-playbook" ::
          lib.pathJoin c.apbDir (bytesOf "provision.yml") :: echoVars)] }
      let res := env.exec "ansible-playbook" cmdArgs
      let w := { w with trace := w.trace ++ [Effect.command "ansible-playbook" cmdArgs] }
      match res.err with
      | some _ =>
        match updateCRStatus lib env c r PhaseFailed ReasonApplyFailed res.out w with
        | (w, .panicked) => (w, .panicked)
        | (w, .returned _) => (w, .returned ())
      | none =>
        let w := { w with metrics :=
          { w.metrics with CreatedReleases := w.metrics.CreatedReleases + 1 } }
        let w := { w with metrics :=
          { w.metrics with ManagedReleases := w.metrics.ManagedReleases + 1 } }
        match updateCRStatus lib env c r PhaseApplied ReasonApplySuccessful res.out w with
        | (w, .panicked) => (w, .panicked)
        | (w, .returned _) => (w, .returned ())

/-- Go `Controller.ResourceUpdated`. -/
def ResourceUpdated {R : Type} (lib : Lib R) (env : Env R) (c : Controller)
    (_oldR newR : Unstructured R) (w : World R) : World R × Result Unit :=
  let w := { w with metrics := { w.metrics with TotalEvents := w.metrics.TotalEvents + 1 } }
  match extraVarsFrom newR with
  | .panicked => (w, .panicked)
  | .returned vars =>
    let cmdArgs := lib.pathJoin c.apbDir (bytesOf "update.yml") :: vars
    let res := env.exec "ansible-playbook" cmdArgs
    let w := { w with trace := w.trace ++ [Effect.command "ansible-playbook" cmdArgs] }
    match res.err with
    | some _ =>
      match updateCRStatus lib env c newR PhaseFailed ReasonApplyFailed res.out w with
      | (w, .panicked) => (w, .panicked)
      | (w, .returned _) => (w, .returned ())
    | none =>
      let w := { w with metrics :=
        { w.metrics with UpdatedReleases := w.metrics.UpdatedReleases + 1 } }
      match updateCRStatus lib env c newR PhaseApplied ReasonApplySuccessful res.out w with
      | (w, .panicked) => (w, .panicked)
      | (w, .returned _) => (w, .returned ())

/-- Go `Controller.ResourceDeleted`. -/
def ResourceDeleted {R : Type} (lib : Lib R) (env : Env R) (c : Controller)
    (r : Unstructured R) (w : World R) : World R × Result Unit :=
  let w := { w with metrics := { w.metrics with TotalEvents := w.metrics.TotalEvents + 1 } }
  match extraVarsFrom r with
  | .panicked => (w, .panicked)
  | .returned vars =>
    let cmdArgs := lib.pathJoin c.apbDir (bytesOf "deprovision.yml") :: vars
    let res := env.exec "ansible-playbook" cmdArgs
    let w := { w with trace := w.trace ++ [Effect.command "ansible-playbook" cmdArgs] }
    match res.err with
    | some _ =>
      let w := { w with metrics :=
        { w.metrics with DeleteFailures := w.metrics.DeleteFailures + 1 } }
      (w, .returned ())
    | none =>
      let w := { w with metrics :=
        { w.metrics with DeletedReleases := w.metrics.DeletedReleases + 1 } }
      let w := { w with metrics :=
        { w.metrics with ManagedReleases := w.metrics.ManagedReleases - 1 } }
      (w, .returned ())

/-! ## Notions used to state the properties -/

/-- One call of `SetPhase`: its two clock readings and its three arguments. -/
structure Call where
  now₁ : Time
  now₂ : Time
  phase : ResourcePhase
  reason : ConditionReason
  message : GoString

/-- The status after one call. -/
def applyCall {R : Type} (s : CustomResourceStatus R) (c : Call) : CustomResourceStatus R :=
  SetPhase s c.now₁ c.now₂ c.phase c.reason c.message

/-- The status after a sequence of calls, in order. -/
def statusAfter {R : Type} (s : CustomResourceStatus R) (calls : List Call) :
    CustomResourceStatus R :=
  calls.foldl applyCall s

/-- The resources passed to the store client's `Update` in a trace, in order. -/
def updates {R : Type} : List (Effect R) → List (Unstructured R)
  | [] => []
  | .update r :: rest => r :: updates rest
  | .command _ _ :: rest => updates rest

/-- An instant cut down to its whole second. -/
def truncateToSecond (t : Time) : Time := t / nanosPerSecond * nanosPerSecond

/-- The library reads back the JSON text of the instant `t`: for `t` other than the
zero time, `time.Format` writes the whole second of `t` as well-formed UTF-8 (RFC 3339
text is ASCII), and `time.Parse` reads that text as the instant at that whole second. -/
def ReadsBack {R : Type} (lib : Lib R) (t : Time) : Prop :=
  t ≠ 0 →
    toValidUTF8 (lib.formatRFC3339 (t / nanosPerSecond)) =
      lib.formatRFC3339 (t / nanosPerSecond) ∧
    lib.parseRFC3339 (lib.formatRFC3339 (t / nanosPerSecond)) = .ok (truncateToSecond t)

/-- The arguments `ansible-playbook` is run with for a playbook and a resource whose
spec has `size`: the playbook under the configured directory, then `namespace=` and
`size=` as extra variables. -/
def workflowArgs {R : Type} (lib : Lib R) (c : Controller) (playbook : String)
    (r : Unstructured R) (size : Int) : List GoString :=
  [lib.pathJoin c.apbDir (bytesOf playbook), bytesOf "-e",
   bytesOf "namespace=" ++ r.GetNamespace, bytesOf "-e", bytesOf "size=" ++ FormatInt size]

/-- The resource `r` with the map `m` placed under its `status` key. -/
def withStatus {R : Type} (r : Unstructured R) (m : Object R) : Unstructured R :=
  { Object := setKey r.Object "status" (.object m) }

/-! ## A library instance for concrete inputs

Concrete inputs need concrete third-party functions. `utcLib` writes and reads the
RFC 3339 text of an instant in UTC, `YYYY-MM-DDTHH:MM:SSZ`, for the years 1 to 9999;
second `0` is `0001-01-01T00:00:00Z`. -/

/-- The date (year, month, day) of day number `days`, day `0` being 0001-01-01, in the
proleptic Gregorian calendar. -/
def civilFromDays (days : Nat) : Nat × Nat × Nat :=
  let z := days + 306
  let era := z / 146097
  let doe := z % 146097
  let yoe := (doe - doe / 1460 + doe / 36524 - doe / 146096) / 365
  let doy := doe - (365 * yoe + yoe / 4 - yoe / 100)
  let mp := (5 * doy + 2) / 153
  let d := doy - (153 * mp + 2) / 5 + 1
  let m := if mp < 10 then mp + 3 else mp - 9
  let y := yoe + era * 400
  (if m ≤ 2 then y + 1 else y, m, d)

/-- The day number of a date; inverse of `civilFromDays` on the dates that exist. -/
def daysFromCivil (y m d : Nat) : Nat :=
  let y := if m ≤ 2 then y - 1 else y
  let era := y / 400
  let yoe := y % 400
  let mp := if m > 2 then m - 3 else m + 9
  let doy := (153 * mp + 2) / 5 + d - 1
  let doe := yoe * 365 + yoe / 4 - yoe / 100 + doy
  era * 146097 + doe - 306

/-- The decimal digit `n % 10` as an ASCII byte. -/
def digitByte (n : Nat) : Byte := byte (48 + n % 10)

/-- The value of an ASCII decimal digit. -/
def digitValue (b : Byte) : Nat := b.val - 48

/-- RFC 3339 text of the instant at whole second `sec`, in UTC. The bytes 45, 84, 58
and 90 are the hyphen, `T`, the colon and `Z`. -/
def formatUTC (sec : Nat) : GoString :=
  let date := civilFromDays (sec / 86400)
  let y := date.1
  let mo := date.2.1
  let d := date.2.2
  let h := sec % 86400 / 3600
  let mi := sec % 3600 / 60
  let s := sec % 60
  [digitByte (y / 1000), digitByte (y / 100), digitByte (y / 10), digitByte y, 45,
    digitByte (mo / 10), digitByte mo, 45, digitByte (d / 10), digitByte d, 84,
    digitByte (h / 10), digitByte h, 58, digitByte (mi / 10), digitByte mi, 58,
    digitByte (s / 10), digitByte s, 90]

/-- Reading of an RFC 3339 text in the form `formatUTC` writes: the instant, in
nanoseconds, whose text is `txt`; any other text is a parse error. -/
def parseUTC (txt : GoString) : Except GoString Nat :=
  match txt with
  | [y1, y2, y3, y4, _, m1, m2, _, d1, d2, _, h1, h2, _, n1, n2, _, s1, s2, _] =>
    let y := digitValue y1 * 1000 + digitValue y2 * 100 + digitValue y3 * 10 + digitValue y4
    let mo := digitValue m1 * 10 + digitValue m2
    let d := digitValue d1 * 10 + digitValue d2
    let h := digitValue h1 * 10 + digitValue h2
    let mi := digitValue n1 * 10 + digitValue n2
    let s := digitValue s1 * 10 + digitValue s2
    let sec := daysFromCivil y mo d * 86400 + h * 3600 + mi * 60 + s
    if formatUTC sec = txt then .ok (sec * nanosPerSecond)
    else .error (bytesOf "parsing time " ++ txt ++ bytesOf " as 2006-01-02T15:04:05Z07:00")
  | _ => .error (bytesOf "parsing time " ++ txt ++ bytesOf " as 2006-01-02T15:04:05Z07:00")

/-- A library instance: RFC 3339 in UTC; a release is its name, written as an object
with the key `name`; `pathJoin` joins two clean, non-empty elements with a slash. The
concrete inputs hold no value of another Go type, and the instance answers such a value
with an error. -/
def utcLib : Lib GoString :=
  { formatRFC3339 := formatUTC
    parseRFC3339 := parseUTC
    marshalRelease := fun rel => .object [("name", .str (toValidUTF8 rel))]
    unmarshalRelease := fun v =>
      match v with
      | .object m =>
        match index m "name" with
        | .str name => .ok name
        | .null => .ok []
        | w => .error (bytesOf ("cannot convert " ++ goTypeName w ++ " to string"))
      | w => .error (bytesOf ("cannot restore struct from: " ++ goTypeName w))
    stringFromOther := fun goType field =>
      .error (bytesOf ("cannot convert " ++ goType ++ " to " ++ field))
    timeFromOther := fun _ => parseUTC []
    pathJoin := fun dir file => dir ++ bytesOf "/" ++ file }

/-! ## Concrete inputs -/

/-- A controller whose playbooks are in the directory `apb`. -/
def apbController : Controller := { apbDir := bytesOf "apb" }

/-- A world in which nothing has happened yet. -/
def emptyWorld : World GoString :=
  { metrics := { TotalEvents := 0, CreatedReleases := 0, UpdatedReleases := 0,
                 DeletedReleases := 0, ManagedReleases := 0, DeleteFailures := 0 }
    trace := []
    ticks := 0 }

/-- An outside world in which `ansible-playbook` succeeds and prints `ok=1`; the clock
starts half a second after 2017-11-30T12:00:00Z and advances one nanosecond a reading. -/
def succeedingEnv : Env GoString :=
  { exec := fun name _ =>
      if name = "ansible-playbook" then { out := bytesOf "ok=1", err := none }
      else { out := [], err := none }
    now := fun k => 63647640000500000000 + k
    update := fun r => .ok r }

/-- An outside world in which `ansible-playbook` prints nothing and fails with the
detail `exit code 1`. -/
def failingEnv : Env GoString :=
  { exec := fun name _ =>
      if name = "ansible-playbook" then { out := [], err := some (bytesOf "exit code 1") }
      else { out := [], err := none }
    now := fun k => 63647640000500000000 + k
    update := fun r => .ok r }

/-- An outside world in which `ansible-playbook` succeeds and prints the single byte
`0xFF`, which is not well-formed UTF-8. -/
def badOutputEnv : Env GoString :=
  { exec := fun name _ =>
      if name = "ansible-playbook" then { out := [0xFF], err := none }
      else { out := [], err := none }
    now := fun k => 63647640000500000000 + k
    update := fun r => .ok r }

/-- The resource `dory` in namespace `ns1` with spec `size: 3` and no status. -/
def resourceSize3 : Unstructured GoString :=
  { Object :=
      [("metadata", .object [("name", .str (bytesOf "dory")),
                             ("namespace", .str (bytesOf "ns1"))]),
       ("spec", .object [("size", .int64 3)])] }

/-- The resource `dory` in namespace `ns1` whose spec has no `size`. -/
def resourceNoSize : Unstructured GoString :=
  { Object :=
      [("metadata", .object [("name", .str (bytesOf "dory")),
                             ("namespace", .str (bytesOf "ns1"))]),
       ("spec", .object [("namespace", .str (bytesOf "ns1"))])] }

/-- A resource whose `status` entry is a string. -/
def resourceStringStatus : Unstructured GoString :=
  { Object := [("metadata", .object [("name", .str (bytesOf "dory"))]),
               ("status", .str (bytesOf "oops"))] }

/-- A resource whose `status` entry is a map with a number for `phase`. -/
def resourceNumberPhase : Unstructured GoString :=
  { Object := [("metadata", .object [("name", .str (bytesOf "dory"))]),
               ("status", .object [("phase", .int64 5)])] }

/-- One call of `SetPhase` half a second after 2017-11-30T12:00:00Z. -/
def callAtHalfSecond : Call :=
  { now₁ := 63647640000500000000, now₂ := 63647640000500000001,
    phase := PhaseApplying, reason := ReasonCustomResourceAdded,
    message := bytesOf "working on it" }

/-- One call of `SetPhase` at 2017-11-30T12:00:00Z sharp. -/
def callAtWholeSecond : Call :=
  { now₁ := 63647640000000000000, now₂ := 63647640000000000000,
    phase := PhaseApplying, reason := ReasonCustomResourceAdded,
    message := bytesOf "working on it" }

/-- One call of `SetPhase` at 2017-11-30T12:00:00Z sharp whose message is the single
byte `0xFF`, which is not well-formed UTF-8. -/
def callWithBadByte : Call :=
  { now₁ := 63647640000000000000, now₂ := 63647640000000000000,
    phase := PhaseFailed, reason := ReasonApplyFailed, message := [0xFF] }

/-- The status map written for `callAtHalfSecond` applied to the zero value. -/
def halfSecondStatusMap : Object GoString :=
  [("release", .null), ("phase", .str (bytesOf "Applying")),
   ("reason", .str (bytesOf "CustomResourceAdded")),
   ("message", .str (bytesOf "working on it")),
   ("lastUpdateTime", .str (bytesOf "2017-11-30T12:00:00Z")),
   ("lastTransitionTime", .str (bytesOf "2017-11-30T12:00:00Z"))]

/-- The status map written for `callWithBadByte` applied to the zero value; the
message is the three bytes of U+FFFD. -/
def badByteStatusMap : Object GoString :=
  [("release", .null), ("phase", .str (bytesOf "Failed")),
   ("reason", .str (bytesOf "ApplyFailed")),
   ("message", .str [0xEF, 0xBF, 0xBD]),
   ("lastUpdateTime", .str (bytesOf "2017-11-30T12:00:00Z")),
   ("lastTransitionTime", .str (bytesOf "2017-11-30T12:00:00Z"))]

/-- The status map written after a successful provision in `succeedingEnv`. -/
def appliedStatusMap : Object GoString :=
  [("release", .null), ("phase", .str (bytesOf "Applied")),
   ("reason", .str (bytesOf "ApplySuccessful")),
   ("message", .str (bytesOf "ok=1")),
   ("lastUpdateTime", .str (bytesOf "2017-11-30T12:00:00Z")),
   ("lastTransitionTime", .str (bytesOf "2017-11-30T12:00:00Z"))]

/-- The status map written after the successful provision in `badOutputEnv`; the
message is the three bytes of U+FFFD. -/
def badOutputStatusMap : Object GoString :=
  [("release", .null), ("phase", .str (bytesOf "Applied")),
   ("reason", .str (bytesOf "ApplySuccessful")),
   ("message", .str [0xEF, 0xBF, 0xBD]),
   ("lastUpdateTime", .str (bytesOf "2017-11-30T12:00:00Z")),
   ("lastTransitionTime", .str (bytesOf "2017-11-30T12:00:00Z"))]

/-- The status map written after the failed provision in `failingEnv`; the message is
empty and so has no key. -/
def failedStatusMap : Object GoString :=
  [("release", .null), ("phase", .str (bytesOf "Failed")),
   ("reason", .str (bytesOf "ApplyFailed")),
   ("lastUpdateTime", .str (bytesOf "2017-11-30T12:00:00Z")),
   ("lastTransitionTime", .str (bytesOf "2017-11-30T12:00:00Z"))]

/-- The command line of the provision playbook for `resourceSize3`. -/
def provisionSize3 : List GoString :=
  [bytesOf "apb/provision.yml", bytesOf "-e", bytesOf "namespace=ns1", bytesOf "-e",
   bytesOf "size=3"]

/-! ## Lemmas on maps and traces -/

theorem lookup_none_of_no_key {R : Type} (m : Object R) (k : String)
    (h : ∀ v, (k, v) ∉ m) : m.lookup k = none := by
  induction m with
  | nil => rfl
  | cons p rest ih =>
    obtain ⟨k0, v0⟩ := p
    have hne : k ≠ k0 := by
      intro hk
      exact h v0 (by simp [hk])
    have hrest : ∀ v, (k, v) ∉ rest := fun v hv => h v (List.mem_cons_of_mem _ hv)
    have hb : (k == k0) = false := by simp [hne]
    simp [List.lookup, hb, ih hrest]

theorem index_setKey {R : Type} (m : Object R) (k : String) (v : Value R) :
    index (setKey m k v) k = v := by
  induction m with
  | nil => simp [setKey, index, List.lookup]
  | cons p rest ih =>
    obtain ⟨k0, v0⟩ := p
    by_cases hk : k0 = k
    · simp [setKey, hk, index, List.lookup]
    · have hk2 : ¬ (k = k0) := fun h => hk h.symm
      have hb : (k == k0) = false := by simp [hk2]
      simp only [index] at ih
      simp [setKey, hk, index, List.lookup, hb, ih]

theorem index_isJSON {R : Type} (m : Object R) (k : String) (h : fieldsJSON m = true) :
    (index m k).isJSON = true := by
  induction m with
  | nil => simp [index, List.lookup, Value.isJSON]
  | cons p rest ih =>
    obtain ⟨k0, v0⟩ := p
    simp only [fieldsJSON, Bool.and_eq_true] at h
    by_cases hk : k = k0
    · subst hk
      simpa [index, List.lookup] using h.1
    · have hb : (k == k0) = false := by simp [hk]
      have := ih h.2
      simp only [index] at this
      simpa [index, List.lookup, hb] using this

theorem updates_append {R : Type} (xs ys : List (Effect R)) :
    updates (xs ++ ys) = updates xs ++ updates ys := by
  induction xs with
  | nil => rfl
  | cons e rest ih => cases e <;> simp [updates, ih]

/-! ## Lemmas on the status model -/

theorem SetPhase_fields {R : Type} (s : CustomResourceStatus R) (now₁ now₂ : Time)
    (phase : ResourcePhase) (reason : ConditionReason) (message : GoString) :
    (SetPhase s now₁ now₂ phase reason message).Phase = phase ∧
    (SetPhase s now₁ now₂ phase reason message).Reason = reason ∧
    (SetPhase s now₁ now₂ phase reason message).Message = message ∧
    (SetPhase s now₁ now₂ phase reason message).Release = s.Release ∧
    (SetPhase s now₁ now₂ phase reason message).LastUpdateTime = now₁ ∧
    (SetPhase s now₁ now₂ phase reason message).LastTransitionTime =
      if s.Phase = phase then s.LastTransitionTime else now₂ := by
  by_cases h : s.Phase = phase <;> simp [SetPhase, h]

theorem statusAfter_take_succ {R : Type} (calls : List Call) (s : CustomResourceStatus R)
    (i : Nat) (h : i < calls.length) :
    statusAfter s (calls.take (i + 1)) =
      applyCall (statusAfter s (calls.take i)) (calls.get ⟨i, h⟩) := by
  induction calls generalizing s i with
  | nil => simp at h
  | cons c rest ih =>
    cases i with
    | zero => simp [statusAfter]
    | succ j =>
      have hj : j < rest.length := by simpa using h
      have := ih (applyCall s c) j hj
      simpa [statusAfter] using this

theorem statusAfter_release {R : Type} (calls : List Call) (s : CustomResourceStatus R)
    (h : s.Release = none) : (statusAfter s calls).Release = none := by
  induction calls generalizing s with
  | nil => simpa [statusAfter] using h
  | cons c rest ih =>
    have hc : (applyCall s c).Release = none := by
      rw [applyCall, (SetPhase_fields s c.now₁ c.now₂ c.phase c.reason c.message).2.2.2.1, h]
    simpa [statusAfter] using ih (applyCall s c) hc

theorem ToMap_index {R : Type} (lib : Lib R) (st : CustomResourceStatus R) (m : Object R)
    (h : ToMap lib st = .ok m) :
    index m "phase" = .str (toValidUTF8 st.Phase) ∧
    index m "reason" = (if st.Reason = [] then .null else .str (toValidUTF8 st.Reason)) ∧
    index m "message" = (if st.Message = [] then .null else .str (toValidUTF8 st.Message)) := by
  simp only [ToMap, Except.ok.injEq] at h
  subst h
  by_cases hr : st.Reason = [] <;> by_cases hm : st.Message = [] <;>
    simp [index, List.lookup, hr, hm]

theorem timeFromUnstructured_marshalTime {R : Type} (lib : Lib R) (t : Time)
    (h : ReadsBack lib t) :
    timeFromUnstructured lib (marshalTime lib t) = .ok (truncateToSecond t) := by
  by_cases ht : t = 0
  · subst ht
    simp [marshalTime, timeFromUnstructured, truncateToSecond]
  · obtain ⟨h1, h2⟩ := h ht
    simp [marshalTime, ht, timeFromUnstructured, h1, h2]

theorem FromUnstructured_ToMap {R : Type} (lib : Lib R) (s : CustomResourceStatus R)
    (m : Object R) (hm : ToMap lib s = .ok m) (hrel : s.Release = none)
    (hu : ReadsBack lib s.LastUpdateTime) (ht : ReadsBack lib s.LastTransitionTime) :
    FromUnstructured lib m = .ok
      { s with Phase := toValidUTF8 s.Phase, Reason := toValidUTF8 s.Reason,
               Message := toValidUTF8 s.Message,
               LastUpdateTime := truncateToSecond s.LastUpdateTime,
               LastTransitionTime := truncateToSecond s.LastTransitionTime } := by
  simp only [ToMap, Except.ok.injEq] at hm
  subst hm
  have h1 := timeFromUnstructured_marshalTime lib s.LastUpdateTime hu
  have h2 := timeFromUnstructured_marshalTime lib s.LastTransitionTime ht
  obtain ⟨rel, ph, re, msg, lu, lt⟩ := s
  simp only at hrel h1 h2 ⊢
  subst hrel
  by_cases hr : re = [] <;> by_cases hmsg : msg = [] <;>
    simp [FromUnstructured, index, List.lookup, hr, hmsg, releaseFromUnstructured,
      stringFromUnstructured, h1, h2, bind, Except.bind, pure, Except.pure, toValidUTF8,
      toValidUTF8From]

theorem truncateToSecond_of_dvd (t : Time) (h : nanosPerSecond ∣ t) : truncateToSecond t = t :=
  Nat.div_mul_cancel h

theorem StatusFor_withStatus {R : Type} (lib : Lib R) (r : Unstructured R) (m : Object R)
    (st : CustomResourceStatus R) (h : FromUnstructured lib m = .ok st) :
    StatusFor lib (withStatus r m) = .returned st := by
  simp [StatusFor, withStatus, index_setKey, h]

theorem StatusFor_of_json {R : Type} (lib : Lib R) (r : Unstructured R)
    (h : fieldsJSON r.Object = true) : ∃ s0, StatusFor lib r = .returned s0 := by
  have hj := index_isJSON r.Object "status" h
  unfold StatusFor
  split
  · rename_i s hs
    rw [hs] at hj
    simp [Value.isJSON] at hj
  · split
    · exact ⟨_, rfl⟩
    · exact ⟨_, rfl⟩
  · exact ⟨_, rfl⟩

/-! ## Lemmas on the controller -/

theorem extraVarsFrom_of_size {R : Type} (r : Unstructured R) (spec : Object R) (n : Int)
    (hspec : index r.Object "spec" = .object spec) (hsize : index spec "size" = .int64 n) :
    extraVarsFrom r =
      .returned [bytesOf "-e", bytesOf "namespace=" ++ r.GetNamespace,
                 bytesOf "-e", bytesOf "size=" ++ FormatInt n] := by
  simp [extraVarsFrom, hspec, hsize]

theorem extraVarsFrom_without_size {R : Type} (r : Unstructured R)
    (h : ∀ spec n, index r.Object "spec" = .object spec → index spec "size" ≠ .int64 n) :
    extraVarsFrom r = .panicked := by
  unfold extraVarsFrom
  split
  · rename_i spec hspec
    split
    · rename_i n hn
      exact absurd hn (h spec n hspec)
    · rfl
  · rfl

/-- A run of `ResourceAdded` on a resource of JSON values with `size`, whose provision
playbook fails: the effects are the echo, the playbook and one status write of `Failed`
and `ApplyFailed` with the standard output as message. -/
theorem ResourceAdded_failure_run {R : Type} (lib : Lib R) (env : Env R) (c : Controller)
    (r : Unstructured R) (w : World R) (spec : Object R) (n : Int) (d : GoString)
    (hjson : fieldsJSON r.Object = true)
    (hspec : index r.Object "spec" = .object spec) (hsize : index spec "size" = .int64 n)
    (hfail : (env.exec "ansible-playbook" (workflowArgs lib c "provision.yml" r n)).err = some d) :
    ∃ st m, ToMap lib st = .ok m ∧
      st.Phase = PhaseFailed ∧ st.Reason = ReasonApplyFailed ∧
      st.Message = (env.exec "ansible-playbook" (workflowArgs lib c "provision.yml" r n)).out ∧
      index m "phase" = .str PhaseFailed ∧ index m "reason" = .str ReasonApplyFailed ∧
      index m "message" =
        (if (env.exec "ansible-playbook" (workflowArgs lib c "provision.yml" r n)).out = []
         then .null
         else .str (toValidUTF8
           (env.exec "ansible-playbook" (workflowArgs lib c "provision.yml" r n)).out)) ∧
      (ResourceAdded lib env c r w).1.trace = w.trace ++
        [Effect.command "echo"
           (bytesOf "ansible-playbook" :: workflowArgs lib c "provision.yml" r n),
         Effect.command "ansible-playbook" (workflowArgs lib c "provision.yml" r n),
         Effect.update (withStatus r m)] ∧
      (ResourceAdded lib env c r w).1.metrics.ManagedReleases = w.metrics.ManagedReleases ∧
      (ResourceAdded lib env c r w).2 = .returned () := by
  have hv := extraVarsFrom_of_size r spec n hspec hsize
  obtain ⟨s0, hstatus⟩ := StatusFor_of_json lib r hjson
  simp only [workflowArgs] at hfail
  obtain ⟨hp, hr, hmsg, -, -, -⟩ := SetPhase_fields s0 (env.now w.ticks) (env.now (w.ticks + 1))
    PhaseFailed ReasonApplyFailed
    (env.exec "ansible-playbook" (workflowArgs lib c "provision.yml" r n)).out
  obtain ⟨hip, hir, him⟩ := ToMap_index lib _ _ (rfl : ToMap lib (SetPhase s0 (env.now w.ticks)
    (env.now (w.ticks + 1)) PhaseFailed ReasonApplyFailed
    (env.exec "ansible-playbook" (workflowArgs lib c "provision.yml" r n)).out) = .ok _)
  refine ⟨_, _, rfl, hp, hr, hmsg, ?_, ?_, ?_, ?_, ?_, ?_⟩
  · rw [hip, hp]; rfl
  · rw [hir, hr]; rfl
  · rw [him, hmsg]
  · simp [ResourceAdded, hv, workflowArgs, hfail, updateCRStatus, hstatus, ToMap,
      SetPodStatuses, withStatus, Unstructured.DeepCopy, hjson]
  · simp [ResourceAdded, hv, workflowArgs, hfail, updateCRStatus, hstatus, ToMap,
      SetPodStatuses, withStatus, Unstructured.DeepCopy, hjson]
  · simp [ResourceAdded, hv, workflowArgs, hfail, updateCRStatus, hstatus, ToMap,
      SetPodStatuses, withStatus, Unstructured.DeepCopy, hjson]

/-- A run of `ResourceAdded` on a resource of JSON values with `size`, whose provision
playbook succeeds: the effects are the echo, the playbook and one status write of
`Applied` and `ApplySuccessful` with the standard output as message; the managed count
goes up by one. -/
theorem ResourceAdded_success_run {R : Type} (lib : Lib R) (env : Env R) (c : Controller)
    (r : Unstructured R) (w : World R) (spec : Object R) (n : Int)
    (hjson : fieldsJSON r.Object = true)
    (hspec : index r.Object "spec" = .object spec) (hsize : index spec "size" = .int64 n)
    (hok : (env.exec "ansible-playbook" (workflowArgs lib c "provision.yml" r n)).err = none) :
    ∃ st m, ToMap lib st = .ok m ∧
      st.Phase = PhaseApplied ∧ st.Reason = ReasonApplySuccessful ∧
      st.Message = (env.exec "ansible-playbook" (workflowArgs lib c "provision.yml" r n)).out ∧
      index m "phase" = .str PhaseApplied ∧ index m "reason" = .str ReasonApplySuccessful ∧
      index m "message" =
        (if (env.exec "ansible-playbook" (workflowArgs lib c "provision.yml" r n)).out = []
         then .null
         else .str (toValidUTF8
           (env.exec "ansible-playbook" (workflowArgs lib c "provision.yml" r n)).out)) ∧
      (ResourceAdded lib env c r w).1.trace = w.trace ++
        [Effect.command "echo"
           (bytesOf "ansible-playbook" :: workflowArgs lib c "provision.yml" r n),
         Effect.command "ansible-playbook" (workflowArgs lib c "provision.yml" r n),
         Effect.update (withStatus r m)] ∧
      (ResourceAdded lib env c r w).1.metrics.ManagedReleases =
        w.metrics.ManagedReleases + 1 ∧
      (ResourceAdded lib env c r w).2 = .returned () := by
  have hv := extraVarsFrom_of_size r spec n hspec hsize
  obtain ⟨s0, hstatus⟩ := StatusFor_of_json lib r hjson
  simp only [workflowArgs] at hok
  obtain ⟨hp, hr, hmsg, -, -, -⟩ := SetPhase_fields s0 (env.now w.ticks) (env.now (w.ticks + 1))
    PhaseApplied ReasonApplySuccessful
    (env.exec "ansible-playbook" (workflowArgs lib c "provision.yml" r n)).out
  obtain ⟨hip, hir, him⟩ := ToMap_index lib _ _ (rfl : ToMap lib (SetPhase s0 (env.now w.ticks)
    (env.now (w.ticks + 1)) PhaseApplied ReasonApplySuccessful
    (env.exec "ansible-playbook" (workflowArgs lib c "provision.yml" r n)).out) = .ok _)
  refine ⟨_, _, rfl, hp, hr, hmsg, ?_, ?_, ?_, ?_, ?_, ?_⟩
  · rw [hip, hp]; rfl
  · rw [hir, hr]; rfl
  · rw [him, hmsg]
  · simp [ResourceAdded, hv, workflowArgs, hok, updateCRStatus, hstatus, ToMap,
      SetPodStatuses, withStatus, Unstructured.DeepCopy, hjson]
  · simp [ResourceAdded, hv, workflowArgs, hok, updateCRStatus, hstatus, ToMap,
      SetPodStatuses, withStatus, Unstructured.DeepCopy, hjson]
  · simp [ResourceAdded, hv, workflowArgs, hok, updateCRStatus, hstatus, ToMap,
      SetPodStatuses, withStatus, Unstructured.DeepCopy, hjson]

/-! ## Claims -/

/-- Claim C1. Along any sequence of `SetPhase` calls from any status, at each step:
`LastUpdateTime` is assigned the clock reading of that call, whether or not the phase
changes; `LastTransitionTime` is assigned the clock reading when the phase argument
differs from the current phase, and is left exactly as it was when the phase argument
equals the current phase. A single call is the sequence of length one. -/
theorem SetPhase_timestamps_along_calls {R : Type} (s : CustomResourceStatus R)
    (calls : List Call) (i : Nat) (h : i < calls.length) :
    (statusAfter s (calls.take (i + 1))).LastUpdateTime = (calls.get ⟨i, h⟩).now₁ ∧
    ((calls.get ⟨i, h⟩).phase ≠ (statusAfter s (calls.take i)).Phase →
      (statusAfter s (calls.take (i + 1))).LastTransitionTime = (calls.get ⟨i, h⟩).now₂) ∧
    ((calls.get ⟨i, h⟩).phase = (statusAfter s (calls.take i)).Phase →
      (statusAfter s (calls.take (i + 1))).LastTransitionTime =
        (statusAfter s (calls.take i)).LastTransitionTime) := by
  rw [statusAfter_take_succ calls s i h]
  obtain ⟨-, -, -, -, hu, ht⟩ := SetPhase_fields (statusAfter s (calls.take i))
    (calls.get ⟨i, h⟩).now₁ (calls.get ⟨i, h⟩).now₂ (calls.get ⟨i, h⟩).phase
    (calls.get ⟨i, h⟩).reason (calls.get ⟨i, h⟩).message
  refine ⟨hu, ?_, ?_⟩
  · intro hne
    rw [applyCall, ht, if_neg (fun e => hne e.symm)]
  · intro he
    rw [applyCall, ht, if_pos he.symm]

/-- Claim C1 on two calls from the zero value, both with phase `Applying`. The first
call changes the phase and sets both times; the second, at index 1, keeps the phase:
it sets `LastUpdateTime` to its reading and leaves `LastTransitionTime` as the first
call set it. -/
theorem SetPhase_timestamps_along_calls_witness :
    1 < [callAtHalfSecond, callAtWholeSecond].length ∧
    (statusAfter (CustomResourceStatus.zero : CustomResourceStatus GoString)
      [callAtHalfSecond, callAtWholeSecond]).LastUpdateTime = 63647640000000000000 ∧
    (statusAfter (CustomResourceStatus.zero : CustomResourceStatus GoString)
      [callAtHalfSecond, callAtWholeSecond]).LastTransitionTime =
      (statusAfter (CustomResourceStatus.zero : CustomResourceStatus GoString)
        [callAtHalfSecond]).LastTransitionTime :=
  ⟨by decide,
   (SetPhase_timestamps_along_calls (CustomResourceStatus.zero : CustomResourceStatus GoString)
      [callAtHalfSecond, callAtWholeSecond] 1 (by decide)).1,
   (SetPhase_timestamps_along_calls (CustomResourceStatus.zero : CustomResourceStatus GoString)
      [callAtHalfSecond, callAtWholeSecond] 1 (by decide)).2.2 rfl⟩

/-- Claim C2 as stated fails: a resource whose `status` entry is the string `oops`
gets the zero-value status, whose phase is the empty phase and not `Failed`, and whose
message is empty. -/
theorem StatusFor_string_status_is_zero_value :
    StatusFor utcLib resourceStringStatus =
      .returned { Release := none, Phase := PhaseNone, Reason := [], Message := [],
                  LastUpdateTime := 0, LastTransitionTime := 0 } ∧
    PhaseNone ≠ PhaseFailed :=
  ⟨rfl, by decide⟩

/-- Claim C2, corrected. When the `status` entry is an attribute map that the
converter fails to decode, `StatusFor` returns the status with phase `Failed`, reason
`ApplyFailed` and the text of the decoding error as message. When the `status` entry
is neither a map nor a `CustomResourceStatus` struct value (a string, for one),
`StatusFor` returns the zero-value status. -/
theorem StatusFor_malformed_status {R : Type} (lib : Lib R) (cr : Unstructured R) :
    (∀ m err, index cr.Object "status" = .object m → FromUnstructured lib m = .error err →
      StatusFor lib cr = .returned
        { Release := none, Phase := PhaseFailed, Reason := ReasonApplyFailed,
          Message := err, LastUpdateTime := 0, LastTransitionTime := 0 }) ∧
    ((∀ m, index cr.Object "status" ≠ .object m) →
      (∀ s, index cr.Object "status" ≠ .status s) →
      StatusFor lib cr = .returned CustomResourceStatus.zero) := by
  constructor
  · intro m err h1 h2
    simp [StatusFor, h1, h2, CustomResourceStatus.zero]
  · intro h1 h2
    unfold StatusFor
    split
    · rename_i s hs; exact absurd hs (h2 s)
    · rename_i m hm; exact absurd hm (h1 m)
    · rfl

/-- Claim C2, corrected, on a status map whose `phase` is a number, and on a status
that is a string. -/
theorem StatusFor_malformed_status_witness :
    (index resourceNumberPhase.Object "status" = .object [("phase", .int64 5)] ∧
     FromUnstructured utcLib [("phase", .int64 5)] =
       .error (bytesOf "cannot convert int64 to crwatcher.ResourcePhase") ∧
     StatusFor utcLib resourceNumberPhase = .returned
       { Release := none, Phase := PhaseFailed, Reason := ReasonApplyFailed,
         Message := bytesOf "cannot convert int64 to crwatcher.ResourcePhase",
         LastUpdateTime := 0, LastTransitionTime := 0 }) ∧
    ((∀ m, index resourceStringStatus.Object "status" ≠ .object m) ∧
     (∀ s, index resourceStringStatus.Object "status" ≠ .status s) ∧
     StatusFor utcLib resourceStringStatus = .returned CustomResourceStatus.zero) :=
  ⟨⟨rfl, rfl, (StatusFor_malformed_status utcLib resourceNumberPhase).1 _ _ rfl rfl⟩,
   ⟨(fun _ h => by cases h), (fun _ h => by cases h),
    (StatusFor_malformed_status utcLib resourceStringStatus).2
      (fun _ h => by cases h) (fun _ h => by cases h)⟩⟩

/-- Claim C3. For a resource whose attribute map has no `status` key, `StatusFor`
returns the zero-value status: the empty phase, empty reason and message, zero times
and no release. -/
theorem StatusFor_absent_status {R : Type} (lib : Lib R) (cr : Unstructured R)
    (h : ∀ v, ("status", v) ∉ cr.Object) :
    StatusFor lib cr = .returned
      { Release := none, Phase := PhaseNone, Reason := [], Message := [],
        LastUpdateTime := 0, LastTransitionTime := 0 } := by
  simp [StatusFor, index, lookup_none_of_no_key cr.Object "status" h,
    CustomResourceStatus.zero, PhaseNone, bytesOf]

/-- Claim C3 on the resource `dory`, which has `metadata` and `spec` only. -/
theorem StatusFor_absent_status_witness :
    (∀ v, ("status", v) ∉ resourceSize3.Object) ∧
    StatusFor utcLib resourceSize3 = .returned
      { Release := none, Phase := PhaseNone, Reason := [], Message := [],
        LastUpdateTime := 0, LastTransitionTime := 0 } :=
  ⟨(fun v h => by simp [resourceSize3] at h),
   StatusFor_absent_status utcLib resourceSize3 (fun v h => by simp [resourceSize3] at h)⟩

/-- Claim C4 as stated fails, in two ways. The status made by one `SetPhase` call on
the zero value, half a second after 2017-11-30T12:00:00Z, is written by `ToMap` with
both times as `2017-11-30T12:00:00Z`; `StatusFor` reads back times at the whole second,
so the status read differs from the status written in `LastUpdateTime` (and in
`LastTransitionTime`). And the status made by one call at a whole second whose message
is the byte `0xFF` is written with the message U+FFFD, so the status read differs from
the status written in `Message`. -/
theorem round_trip_loses_fraction_of_second :
    (ToMap utcLib (statusAfter CustomResourceStatus.zero [callAtHalfSecond]) =
      .ok halfSecondStatusMap ∧
     StatusFor utcLib (withStatus resourceSize3 halfSecondStatusMap) = .returned
      { Release := none, Phase := PhaseApplying, Reason := ReasonCustomResourceAdded,
        Message := bytesOf "working on it", LastUpdateTime := 63647640000000000000,
        LastTransitionTime := 63647640000000000000 } ∧
     (statusAfter (CustomResourceStatus.zero : CustomResourceStatus GoString)
      [callAtHalfSecond]).LastUpdateTime = 63647640000500000000 ∧
     StatusFor utcLib (withStatus resourceSize3 halfSecondStatusMap) ≠
      .returned (statusAfter CustomResourceStatus.zero [callAtHalfSecond])) ∧
    (ToMap utcLib (statusAfter CustomResourceStatus.zero [callWithBadByte]) =
      .ok badByteStatusMap ∧
     StatusFor utcLib (withStatus resourceSize3 badByteStatusMap) = .returned
      { Release := none, Phase := PhaseFailed, Reason := ReasonApplyFailed,
        Message := [0xEF, 0xBF, 0xBD], LastUpdateTime := 63647640000000000000,
        LastTransitionTime := 63647640000000000000 } ∧
     (statusAfter (CustomResourceStatus.zero : CustomResourceStatus GoString)
      [callWithBadByte]).Message = [0xFF] ∧
     StatusFor utcLib (withStatus resourceSize3 badByteStatusMap) ≠
      .returned (statusAfter CustomResourceStatus.zero [callWithBadByte])) := by
  refine ⟨⟨rfl, rfl, rfl, ?_⟩, ⟨rfl, rfl, rfl, ?_⟩⟩
  · intro h
    have h2 : StatusFor utcLib (withStatus resourceSize3 halfSecondStatusMap) = .returned
        { Release := none, Phase := PhaseApplying, Reason := ReasonCustomResourceAdded,
          Message := bytesOf "working on it", LastUpdateTime := 63647640000000000000,
          LastTransitionTime := 63647640000000000000 } := rfl
    rw [h2] at h
    injection h with h
    have h3 := congrArg CustomResourceStatus.LastUpdateTime h
    revert h3
    decide
  · intro h
    have h2 : StatusFor utcLib (withStatus resourceSize3 badByteStatusMap) = .returned
        { Release := none, Phase := PhaseFailed, Reason := ReasonApplyFailed,
          Message := [0xEF, 0xBF, 0xBD], LastUpdateTime := 63647640000000000000,
          LastTransitionTime := 63647640000000000000 } := rfl
    rw [h2] at h
    injection h with h
    have h3 := congrArg CustomResourceStatus.Message h
    revert h3
    decide

/-- Claim C4, corrected. Let `s` be the status after any sequence of `SetPhase` calls
from the zero value, and suppose the library reads back the JSON text of the two
times of `s`. Then `ToMap s` succeeds, and `StatusFor` on any resource carrying that
map under `status` returns `s` with phase, reason and message as JSON writes them
(bytes that are not well-formed UTF-8 replaced by U+FFFD) and with each of the two
times cut down to its whole second; the release is that of `s`. When phase, reason and
message are well-formed UTF-8 and both times are whole seconds, the status returned is
`s`. -/
theorem ToMap_StatusFor_round_trip {R : Type} (lib : Lib R) (calls : List Call)
    (r : Unstructured R)
    (hu : ReadsBack lib
      (statusAfter (CustomResourceStatus.zero : CustomResourceStatus R) calls).LastUpdateTime)
    (ht : ReadsBack lib
      (statusAfter (CustomResourceStatus.zero : CustomResourceStatus R)
        calls).LastTransitionTime) :
    ∃ m, ToMap lib (statusAfter CustomResourceStatus.zero calls) = .ok m ∧
      StatusFor lib (withStatus r m) = .returned
        { statusAfter CustomResourceStatus.zero calls with
          Phase := toValidUTF8
            (statusAfter (CustomResourceStatus.zero : CustomResourceStatus R) calls).Phase,
          Reason := toValidUTF8
            (statusAfter (CustomResourceStatus.zero : CustomResourceStatus R) calls).Reason,
          Message := toValidUTF8
            (statusAfter (CustomResourceStatus.zero : CustomResourceStatus R) calls).Message,
          LastUpdateTime := truncateToSecond
            (statusAfter (CustomResourceStatus.zero : CustomResourceStatus R)
              calls).LastUpdateTime,
          LastTransitionTime := truncateToSecond
            (statusAfter (CustomResourceStatus.zero : CustomResourceStatus R)
              calls).LastTransitionTime } ∧
      (toValidUTF8 (statusAfter (CustomResourceStatus.zero : CustomResourceStatus R)
          calls).Phase =
          (statusAfter (CustomResourceStatus.zero : CustomResourceStatus R) calls).Phase →
       toValidUTF8 (statusAfter (CustomResourceStatus.zero : CustomResourceStatus R)
          calls).Reason =
          (statusAfter (CustomResourceStatus.zero : CustomResourceStatus R) calls).Reason →
       toValidUTF8 (statusAfter (CustomResourceStatus.zero : CustomResourceStatus R)
          calls).Message =
          (statusAfter (CustomResourceStatus.zero : CustomResourceStatus R) calls).Message →
       nanosPerSecond ∣ (statusAfter (CustomResourceStatus.zero : CustomResourceStatus R)
          calls).LastUpdateTime →
       nanosPerSecond ∣ (statusAfter (CustomResourceStatus.zero : CustomResourceStatus R)
          calls).LastTransitionTime →
        StatusFor lib (withStatus r m) =
          .returned (statusAfter CustomResourceStatus.zero calls)) := by
  have hrel := statusAfter_release calls (CustomResourceStatus.zero : CustomResourceStatus R) rfl
  have hrt := FromUnstructured_ToMap lib _ _ rfl hrel hu ht
  refine ⟨_, rfl, StatusFor_withStatus lib r _ _ hrt, ?_⟩
  intro h1 h2 h3 h4 h5
  rw [StatusFor_withStatus lib r _ _ hrt, h1, h2, h3, truncateToSecond_of_dvd _ h4,
    truncateToSecond_of_dvd _ h5]

/-- Claim C4, corrected, on one call at 2017-11-30T12:00:00Z sharp with a message in
ASCII: the text `2017-11-30T12:00:00Z` is read back as that instant, and the round
trip returns the status itself. -/
theorem ToMap_StatusFor_round_trip_witness :
    ReadsBack utcLib
      (statusAfter (CustomResourceStatus.zero : CustomResourceStatus GoString)
        [callAtWholeSecond]).LastUpdateTime ∧
    ReadsBack utcLib
      (statusAfter (CustomResourceStatus.zero : CustomResourceStatus GoString)
        [callAtWholeSecond]).LastTransitionTime ∧
    ∃ m, ToMap utcLib (statusAfter CustomResourceStatus.zero [callAtWholeSecond]) = .ok m ∧
      StatusFor utcLib (withStatus resourceSize3 m) = .returned
        { Release := none, Phase := PhaseApplying, Reason := ReasonCustomResourceAdded,
          Message := bytesOf "working on it", LastUpdateTime := 63647640000000000000,
          LastTransitionTime := 63647640000000000000 } ∧
      (toValidUTF8 PhaseApplying = PhaseApplying →
       toValidUTF8 ReasonCustomResourceAdded = ReasonCustomResourceAdded →
       toValidUTF8 (bytesOf "working on it") = bytesOf "working on it" →
       nanosPerSecond ∣ 63647640000000000000 →
       nanosPerSecond ∣ 63647640000000000000 →
        StatusFor utcLib (withStatus resourceSize3 m) =
          .returned (statusAfter CustomResourceStatus.zero [callAtWholeSecond])) :=
  ⟨(fun _ => ⟨rfl, rfl⟩), (fun _ => ⟨rfl, rfl⟩),
   ToMap_StatusFor_round_trip utcLib [callAtWholeSecond] resourceSize3
     (fun _ => ⟨rfl, rfl⟩) (fun _ => ⟨rfl, rfl⟩)⟩

/-- Claim C5 as stated fails: on the resource whose spec has `namespace` and no `size`,
`ResourceAdded` panics in `extraVarsFrom`; it runs no command and makes no status
write, so no `Failed` status is persisted. -/
theorem ResourceAdded_missing_size_panics :
    (ResourceAdded utcLib succeedingEnv apbController resourceNoSize emptyWorld).2 =
      .panicked ∧
    (ResourceAdded utcLib succeedingEnv apbController resourceNoSize emptyWorld).1.trace = [] :=
  ⟨rfl, rfl⟩

/-- Claim C5, corrected. For a resource whose `spec` has no `int64` under `size`
(absent, or of another type, or `spec` not a map), `ResourceAdded` adds no effect to
the trace: it runs no command, so the workflow is not invoked, and it writes no status
to the store. Of the counters only `TotalEvents` moves. -/
theorem ResourceAdded_without_size {R : Type} (lib : Lib R) (env : Env R) (c : Controller)
    (r : Unstructured R) (w : World R)
    (h : ∀ spec n, index r.Object "spec" = .object spec → index spec "size" ≠ .int64 n) :
    (ResourceAdded lib env c r w).1.trace = w.trace ∧
    (ResourceAdded lib env c r w).1.metrics =
      { w.metrics with TotalEvents := w.metrics.TotalEvents + 1 } := by
  simp [ResourceAdded, extraVarsFrom_without_size r h]

/-- Claim C5, corrected, on the resource whose spec has `namespace` and no `size`. -/
theorem ResourceAdded_without_size_witness :
    (∀ spec n, index resourceNoSize.Object "spec" = .object spec →
      index spec "size" ≠ .int64 n) ∧
    (ResourceAdded utcLib succeedingEnv apbController resourceNoSize emptyWorld).1.trace =
      emptyWorld.trace ∧
    (ResourceAdded utcLib succeedingEnv apbController resourceNoSize emptyWorld).1.metrics =
      { emptyWorld.metrics with TotalEvents := emptyWorld.metrics.TotalEvents + 1 } :=
  ⟨(fun spec n hs hn => by cases hs; cases hn),
   ResourceAdded_without_size utcLib succeedingEnv apbController resourceNoSize emptyWorld
     (fun spec n hs hn => by cases hs; cases hn)⟩

/-- Claim C6 as stated fails: in `failingEnv` the provision playbook prints nothing and
fails with the detail `exit code 1`. `ResourceAdded` runs the echo and the playbook and
writes one status, with phase `Failed` and reason `ApplyFailed`, whose message is the
standard output, here empty: the status read back has the empty message, which does
not contain `exit code 1`. -/
theorem ResourceAdded_failure_message_is_stdout :
    (failingEnv.exec "ansible-playbook" provisionSize3).err = some (bytesOf "exit code 1") ∧
    (ResourceAdded utcLib failingEnv apbController resourceSize3 emptyWorld).1.trace =
      [Effect.command "echo" (bytesOf "ansible-playbook" :: provisionSize3),
       Effect.command "ansible-playbook" provisionSize3,
       Effect.update (withStatus resourceSize3 failedStatusMap)] ∧
    StatusFor utcLib (withStatus resourceSize3 failedStatusMap) = .returned
      { Release := none, Phase := PhaseFailed, Reason := ReasonApplyFailed, Message := [],
        LastUpdateTime := 63647640000000000000,
        LastTransitionTime := 63647640000000000000 } ∧
    ¬ (bytesOf "exit code 1" <:+: ([] : GoString)) :=
  ⟨rfl, rfl, rfl, by decide⟩

/-- Claim C6, corrected. For a resource made of JSON values (one that `DeepCopy`
copies) whose spec has the `int64` `size`, when the provision playbook fails with any
detail `d`, `ResourceAdded` runs the echo and the playbook and then makes one store
write, of the resource with the status map of a status with phase `Failed`, reason
`ApplyFailed` and the standard output of the playbook as message: in the map, the
message is that output as JSON writes it, and is absent when the output is empty. The
detail `d` is not in the status. The managed count is left as it was, and the handler
returns. -/
theorem ResourceAdded_workflow_failure {R : Type} (lib : Lib R) (env : Env R)
    (c : Controller) (r : Unstructured R) (w : World R) (spec : Object R) (n : Int)
    (d : GoString)
    (hjson : fieldsJSON r.Object = true)
    (hspec : index r.Object "spec" = .object spec) (hsize : index spec "size" = .int64 n)
    (hfail : (env.exec "ansible-playbook" (workflowArgs lib c "provision.yml" r n)).err = some d) :
    ∃ st m, ToMap lib st = .ok m ∧
      st.Phase = PhaseFailed ∧ st.Reason = ReasonApplyFailed ∧
      st.Message = (env.exec "ansible-playbook" (workflowArgs lib c "provision.yml" r n)).out ∧
      index m "phase" = .str PhaseFailed ∧ index m "reason" = .str ReasonApplyFailed ∧
      index m "message" =
        (if (env.exec "ansible-playbook" (workflowArgs lib c "provision.yml" r n)).out = []
         then .null
         else .str (toValidUTF8
           (env.exec "ansible-playbook" (workflowArgs lib c "provision.yml" r n)).out)) ∧
      (ResourceAdded lib env c r w).1.trace = w.trace ++
        [Effect.command "echo"
           (bytesOf "ansible-playbook" :: workflowArgs lib c "provision.yml" r n),
         Effect.command "ansible-playbook" (workflowArgs lib c "provision.yml" r n),
         Effect.update (withStatus r m)] ∧
      (ResourceAdded lib env c r w).1.metrics.ManagedReleases = w.metrics.ManagedReleases ∧
      (ResourceAdded lib env c r w).2 = .returned () :=
  ResourceAdded_failure_run lib env c r w spec n d hjson hspec hsize hfail

/-- Claim C6, corrected, on the resource `dory` with `size: 3` in `failingEnv`. -/
theorem ResourceAdded_workflow_failure_witness :
    fieldsJSON resourceSize3.Object = true ∧
    index resourceSize3.Object "spec" = .object [("size", .int64 3)] ∧
    index [("size", (.int64 3 : Value GoString))] "size" = .int64 3 ∧
    (failingEnv.exec "ansible-playbook"
      (workflowArgs utcLib apbController "provision.yml" resourceSize3 3)).err =
        some (bytesOf "exit code 1") ∧
    ∃ st m, ToMap utcLib st = .ok m ∧
      st.Phase = PhaseFailed ∧ st.Reason = ReasonApplyFailed ∧
      st.Message = (failingEnv.exec "ansible-playbook"
        (workflowArgs utcLib apbController "provision.yml" resourceSize3 3)).out ∧
      index m "phase" = .str PhaseFailed ∧ index m "reason" = .str ReasonApplyFailed ∧
      index m "message" =
        (if (failingEnv.exec "ansible-playbook"
            (workflowArgs utcLib apbController "provision.yml" resourceSize3 3)).out = []
         then .null
         else .str (toValidUTF8 (failingEnv.exec "ansible-playbook"
            (workflowArgs utcLib apbController "provision.yml" resourceSize3 3)).out)) ∧
      (ResourceAdded utcLib failingEnv apbController resourceSize3 emptyWorld).1.trace =
        emptyWorld.trace ++
        [Effect.command "echo" (bytesOf "ansible-playbook" ::
           workflowArgs utcLib apbController "provision.yml" resourceSize3 3),
         Effect.command "ansible-playbook"
           (workflowArgs utcLib apbController "provision.yml" resourceSize3 3),
         Effect.update (withStatus resourceSize3 m)] ∧
      (ResourceAdded utcLib failingEnv apbController resourceSize3
        emptyWorld).1.metrics.ManagedReleases = emptyWorld.metrics.ManagedReleases ∧
      (ResourceAdded utcLib failingEnv apbController resourceSize3 emptyWorld).2 =
        .returned () :=
  ⟨rfl, rfl, rfl, rfl,
   ResourceAdded_workflow_failure utcLib failingEnv apbController resourceSize3 emptyWorld
     [("size", .int64 3)] 3 (bytesOf "exit code 1") rfl rfl rfl rfl⟩

/-- Claim C7 as stated fails: in `badOutputEnv` the provision playbook succeeds and
its captured output is the byte `0xFF`. `ResourceAdded` runs the playbook with
`namespace=ns1` and `size=3` and writes one status, with phase `Applied` and reason
`ApplySuccessful`, whose message in the map written is U+FFFD, which is not the
captured output. -/
theorem ResourceAdded_success_message_as_json :
    (badOutputEnv.exec "ansible-playbook" provisionSize3).err = none ∧
    (badOutputEnv.exec "ansible-playbook" provisionSize3).out = [0xFF] ∧
    (ResourceAdded utcLib badOutputEnv apbController resourceSize3 emptyWorld).1.trace =
      [Effect.command "echo" (bytesOf "ansible-playbook" :: provisionSize3),
       Effect.command "ansible-playbook" provisionSize3,
       Effect.update (withStatus resourceSize3 badOutputStatusMap)] ∧
    index badOutputStatusMap "message" = .str [0xEF, 0xBF, 0xBD] ∧
    ([0xEF, 0xBF, 0xBD] : GoString) ≠ [0xFF] :=
  ⟨rfl, rfl, rfl, rfl, by decide⟩

/-- Claim C7, corrected. For a resource made of JSON values (one that `DeepCopy`
copies) with namespace `r.GetNamespace` and the `int64` `size` equal to `n` in its
spec, when the provision playbook succeeds: `ResourceAdded` runs `ansible-playbook` on
`provision.yml` under the configured directory with the extra variables `namespace=`
followed by the namespace and `size=` followed by `n` in decimal; it then makes one
store write, of the resource with the status map of a status with phase `Applied`,
reason `ApplySuccessful` and the captured output as message: in the map written, the
message is that output as JSON writes it (bytes that are not well-formed UTF-8
replaced by U+FFFD), and is absent when the output is empty. The managed count goes up
by exactly one, and the handler returns. -/
theorem ResourceAdded_workflow_success {R : Type} (lib : Lib R) (env : Env R)
    (c : Controller) (r : Unstructured R) (w : World R) (spec : Object R) (n : Int)
    (hjson : fieldsJSON r.Object = true)
    (hspec : index r.Object "spec" = .object spec) (hsize : index spec "size" = .int64 n)
    (hok : (env.exec "ansible-playbook"
      [lib.pathJoin c.apbDir (bytesOf "provision.yml"), bytesOf "-e",
       bytesOf "namespace=" ++ r.GetNamespace, bytesOf "-e",
       bytesOf "size=" ++ bytesOf (toString n)]).err = none) :
    ∃ st m, ToMap lib st = .ok m ∧
      st.Phase = PhaseApplied ∧ st.Reason = ReasonApplySuccessful ∧
      st.Message = (env.exec "ansible-playbook"
        [lib.pathJoin c.apbDir (bytesOf "provision.yml"), bytesOf "-e",
         bytesOf "namespace=" ++ r.GetNamespace, bytesOf "-e",
         bytesOf "size=" ++ bytesOf (toString n)]).out ∧
      index m "phase" = .str PhaseApplied ∧ index m "reason" = .str ReasonApplySuccessful ∧
      index m "message" =
        (if (env.exec "ansible-playbook"
            [lib.pathJoin c.apbDir (bytesOf "provision.yml"), bytesOf "-e",
             bytesOf "namespace=" ++ r.GetNamespace, bytesOf "-e",
             bytesOf "size=" ++ bytesOf (toString n)]).out = []
         then .null
         else .str (toValidUTF8 (env.exec "ansible-playbook"
            [lib.pathJoin c.apbDir (bytesOf "provision.yml"), bytesOf "-e",
             bytesOf "namespace=" ++ r.GetNamespace, bytesOf "-e",
             bytesOf "size=" ++ bytesOf (toString n)]).out)) ∧
      (ResourceAdded lib env c r w).1.trace = w.trace ++
        [Effect.command "echo"
           [bytesOf "ansible-playbook", lib.pathJoin c.apbDir (bytesOf "provision.yml"),
            bytesOf "-e", bytesOf "namespace=" ++ r.GetNamespace, bytesOf "-e",
            bytesOf "size=" ++ bytesOf (toString n)],
         Effect.command "ansible-playbook"
           [lib.pathJoin c.apbDir (bytesOf "provision.yml"), bytesOf "-e",
            bytesOf "namespace=" ++ r.GetNamespace, bytesOf "-e",
            bytesOf "size=" ++ bytesOf (toString n)],
         Effect.update (withStatus r m)] ∧
      (ResourceAdded lib env c r w).1.metrics.ManagedReleases =
        w.metrics.ManagedReleases + 1 ∧
      (ResourceAdded lib env c r w).2 = .returned () :=
  ResourceAdded_success_run lib env c r w spec n hjson hspec hsize hok

/-- Claim C7, corrected, on the resource `dory` in namespace `ns1` with `size: 3`, in
`succeedingEnv`: the playbook is run with `namespace=ns1` and `size=3`, the status
written has phase `Applied`, reason `ApplySuccessful` and the message `ok=1`, and the
managed count goes from zero to one. -/
theorem ResourceAdded_workflow_success_witness :
    fieldsJSON resourceSize3.Object = true ∧
    index resourceSize3.Object "spec" = .object [("size", .int64 3)] ∧
    index [("size", (.int64 3 : Value GoString))] "size" = .int64 3 ∧
    (succeedingEnv.exec "ansible-playbook"
      [bytesOf "apb/provision.yml", bytesOf "-e", bytesOf "namespace=ns1", bytesOf "-e",
       bytesOf "size=3"]).err = none ∧
    ∃ st m, ToMap utcLib st = .ok m ∧
      st.Phase = PhaseApplied ∧ st.Reason = ReasonApplySuccessful ∧
      st.Message = bytesOf "ok=1" ∧
      index m "phase" = .str (bytesOf "Applied") ∧
      index m "reason" = .str (bytesOf "ApplySuccessful") ∧
      index m "message" = .str (bytesOf "ok=1") ∧
      (ResourceAdded utcLib succeedingEnv apbController resourceSize3 emptyWorld).1.trace =
        [Effect.command "echo"
           [bytesOf "ansible-playbook", bytesOf "apb/provision.yml", bytesOf "-e",
            bytesOf "namespace=ns1", bytesOf "-e", bytesOf "size=3"],
         Effect.command "ansible-playbook"
           [bytesOf "apb/provision.yml", bytesOf "-e", bytesOf "namespace=ns1",
            bytesOf "-e", bytesOf "size=3"],
         Effect.update (withStatus resourceSize3 m)] ∧
      (ResourceAdded utcLib succeedingEnv apbController resourceSize3
        emptyWorld).1.metrics.ManagedReleases = 1 ∧
      (ResourceAdded utcLib succeedingEnv apbController resourceSize3 emptyWorld).2 =
        .returned () :=
  ⟨rfl, rfl, rfl, rfl,
   ResourceAdded_workflow_success utcLib succeedingEnv apbController resourceSize3
     emptyWorld [("size", .int64 3)] 3 rfl rfl rfl rfl⟩

/-- Claim C8 as stated fails: on the resource `dory` with `size: 3` and a provision
playbook that succeeds, the whole trace of `ResourceAdded` is the echo, the playbook,
and then one status write, with phase `Applied`. No status write comes before the
playbook, and no status with phase `Applying` is written. -/
theorem ResourceAdded_no_write_before_workflow :
    (ResourceAdded utcLib succeedingEnv apbController resourceSize3 emptyWorld).1.trace =
      [Effect.command "echo" (bytesOf "ansible-playbook" :: provisionSize3),
       Effect.command "ansible-playbook" provisionSize3,
       Effect.update (withStatus resourceSize3 appliedStatusMap)] ∧
    index appliedStatusMap "phase" = .str PhaseApplied ∧
    PhaseApplied ≠ PhaseApplying :=
  ⟨rfl, rfl, by decide⟩

/-- Claim C8, corrected. For a resource whose spec has the `int64` `size`, so that the
provision playbook is run, the effects `ResourceAdded` adds to the trace are, in
order: the echo of the command line, the run of the playbook, and then nothing or one
status write, whose phase is `Applied` or `Failed`. No store write comes before the
run of the playbook. -/
theorem ResourceAdded_effect_order {R : Type} (lib : Lib R) (env : Env R) (c : Controller)
    (r : Unstructured R) (w : World R) (spec : Object R) (n : Int)
    (hspec : index r.Object "spec" = .object spec) (hsize : index spec "size" = .int64 n) :
    ∃ rest, (ResourceAdded lib env c r w).1.trace = w.trace ++
        Effect.command "echo"
          (bytesOf "ansible-playbook" :: workflowArgs lib c "provision.yml" r n) ::
        Effect.command "ansible-playbook" (workflowArgs lib c "provision.yml" r n) :: rest ∧
      (rest = [] ∨ ∃ st m, ToMap lib st = .ok m ∧ rest = [Effect.update (withStatus r m)] ∧
        index m "phase" = .str st.Phase ∧ (st.Phase = PhaseApplied ∨ st.Phase = PhaseFailed)) := by
  have hv := extraVarsFrom_of_size r spec n hspec hsize
  cases hjson : fieldsJSON r.Object with
  | false =>
    refine ⟨[], ?_, Or.inl rfl⟩
    cases herr : (env.exec "ansible-playbook" (workflowArgs lib c "provision.yml" r n)).err <;>
    · simp only [workflowArgs] at herr
      simp [ResourceAdded, hv, workflowArgs, herr, updateCRStatus, Unstructured.DeepCopy, hjson]
  | true =>
    cases herr : (env.exec "ansible-playbook" (workflowArgs lib c "provision.yml" r n)).err with
    | none =>
      obtain ⟨st, m, hm, hp, -, -, hip, -, -, ht, -, -⟩ :=
        ResourceAdded_success_run lib env c r w spec n hjson hspec hsize herr
      exact ⟨[Effect.update (withStatus r m)], by simpa using ht,
        Or.inr ⟨st, m, hm, rfl, by rw [hip, hp], Or.inl hp⟩⟩
    | some d =>
      obtain ⟨st, m, hm, hp, -, -, hip, -, -, ht, -, -⟩ :=
        ResourceAdded_failure_run lib env c r w spec n d hjson hspec hsize herr
      exact ⟨[Effect.update (withStatus r m)], by simpa using ht,
        Or.inr ⟨st, m, hm, rfl, by rw [hip, hp], Or.inr hp⟩⟩

/-- Claim C8, corrected, on the resource `dory` with `size: 3` in `succeedingEnv`. -/
theorem ResourceAdded_effect_order_witness :
    index resourceSize3.Object "spec" = .object [("size", .int64 3)] ∧
    index [("size", (.int64 3 : Value GoString))] "size" = .int64 3 ∧
    ∃ rest, (ResourceAdded utcLib succeedingEnv apbController resourceSize3
        emptyWorld).1.trace = emptyWorld.trace ++
        Effect.command "echo" (bytesOf "ansible-playbook" ::
          workflowArgs utcLib apbController "provision.yml" resourceSize3 3) ::
        Effect.command "ansible-playbook"
          (workflowArgs utcLib apbController "provision.yml" resourceSize3 3) :: rest ∧
      (rest = [] ∨ ∃ st m, ToMap utcLib st = .ok m ∧
        rest = [Effect.update (withStatus resourceSize3 m)] ∧
        index m "phase" = .str st.Phase ∧ (st.Phase = PhaseApplied ∨ st.Phase = PhaseFailed)) :=
  ⟨rfl, rfl,
   ResourceAdded_effect_order utcLib succeedingEnv apbController resourceSize3 emptyWorld
     [("size", .int64 3)] 3 rfl rfl⟩

/-- Claim C9. For every resource, `ResourceDeleted` adds no `Update` call to the trace
and reads no clock, whatever the playbook does and also when `extraVarsFrom` panics.
When the deprovision playbook is run and fails, the counters change by `TotalEvents`
and `DeleteFailures` plus one; when it succeeds, by `TotalEvents` and `DeletedReleases`
plus one and `ManagedReleases` minus one. -/
theorem ResourceDeleted_never_updates {R : Type} (lib : Lib R) (env : Env R) (c : Controller)
    (r : Unstructured R) (w : World R) :
    updates (ResourceDeleted lib env c r w).1.trace = updates w.trace ∧
    (ResourceDeleted lib env c r w).1.ticks = w.ticks ∧
    (∀ vars, extraVarsFrom r = .returned vars →
      ((env.exec "ansible-playbook"
          (lib.pathJoin c.apbDir (bytesOf "deprovision.yml") :: vars)).err ≠ none →
        (ResourceDeleted lib env c r w).1.metrics =
          { w.metrics with TotalEvents := w.metrics.TotalEvents + 1,
                           DeleteFailures := w.metrics.DeleteFailures + 1 }) ∧
      ((env.exec "ansible-playbook"
          (lib.pathJoin c.apbDir (bytesOf "deprovision.yml") :: vars)).err = none →
        (ResourceDeleted lib env c r w).1.metrics =
          { w.metrics with TotalEvents := w.metrics.TotalEvents + 1,
                           DeletedReleases := w.metrics.DeletedReleases + 1,
                           ManagedReleases := w.metrics.ManagedReleases - 1 })) := by
  refine ⟨?_, ?_, ?_⟩
  · unfold ResourceDeleted
    cases hv : extraVarsFrom r with
    | panicked => simp
    | returned vars =>
      cases herr : (env.exec "ansible-playbook"
          (lib.pathJoin c.apbDir (bytesOf "deprovision.yml") :: vars)).err <;>
        simp [herr, updates_append, updates]
  · unfold ResourceDeleted
    cases hv : extraVarsFrom r with
    | panicked => simp
    | returned vars =>
      cases herr : (env.exec "ansible-playbook"
          (lib.pathJoin c.apbDir (bytesOf "deprovision.yml") :: vars)).err <;>
        simp [herr]
  · intro vars hv
    constructor
    · intro herr
      cases herr2 : (env.exec "ansible-playbook"
          (lib.pathJoin c.apbDir (bytesOf "deprovision.yml") :: vars)).err with
      | none => exact absurd herr2 herr
      | some d => simp [ResourceDeleted, hv, herr2]
    · intro herr
      simp [ResourceDeleted, hv, herr]

/-- Claim C9 on the resource `dory` with `size: 3`, with the playbook failing and with
the playbook succeeding. -/
theorem ResourceDeleted_never_updates_witness :
    extraVarsFrom resourceSize3 =
      .returned [bytesOf "-e", bytesOf "namespace=ns1", bytesOf "-e", bytesOf "size=3"] ∧
    ((failingEnv.exec "ansible-playbook"
        [bytesOf "apb/deprovision.yml", bytesOf "-e", bytesOf "namespace=ns1",
         bytesOf "-e", bytesOf "size=3"]).err ≠ none ∧
      updates (ResourceDeleted utcLib failingEnv apbController resourceSize3
        emptyWorld).1.trace = [] ∧
      (ResourceDeleted utcLib failingEnv apbController resourceSize3 emptyWorld).1.metrics =
        { TotalEvents := 1, CreatedReleases := 0, UpdatedReleases := 0,
          DeletedReleases := 0, ManagedReleases := 0, DeleteFailures := 1 }) ∧
    ((succeedingEnv.exec "ansible-playbook"
        [bytesOf "apb/deprovision.yml", bytesOf "-e", bytesOf "namespace=ns1",
         bytesOf "-e", bytesOf "size=3"]).err = none ∧
      updates (ResourceDeleted utcLib succeedingEnv apbController resourceSize3
        emptyWorld).1.trace = [] ∧
      (ResourceDeleted utcLib succeedingEnv apbController resourceSize3 emptyWorld).1.metrics =
        { TotalEvents := 1, CreatedReleases := 0, UpdatedReleases := 0,
          DeletedReleases := 1, ManagedReleases := -1, DeleteFailures := 0 }) :=
  ⟨rfl,
   ⟨by decide,
    (ResourceDeleted_never_updates utcLib failingEnv apbController resourceSize3
      emptyWorld).1,
    ((ResourceDeleted_never_updates utcLib failingEnv apbController resourceSize3
      emptyWorld).2.2 _ rfl).1 (by decide)⟩,
   ⟨rfl,
    (ResourceDeleted_never_updates utcLib succeedingEnv apbController resourceSize3
      emptyWorld).1,
    ((ResourceDeleted_never_updates utcLib succeedingEnv apbController resourceSize3
      emptyWorld).2.2 _ rfl).2 rfl⟩⟩

/-- Claim C10 fails on the code: for a resource whose `status` entry holds a
`CustomResourceStatus` struct value, whatever the value and the rest of the resource,
`StatusFor` panics at the type assertion to the pointer type. -/
theorem StatusFor_struct_value_panics {R : Type} (lib : Lib R) (s : CustomResourceStatus R)
    (rest : Object R) :
    StatusFor lib { Object := ("status", Value.status s) :: rest } = .panicked := by
  simp [StatusFor, index, List.lookup]

end Lostromos
